import Mathlib

/-!
Verification of the jimmy note converter (Python) against its specification.

Python strings are modelled as `List Char` (`PyStr`): the Python string
functions used by the code (`str.split`, slicing, `startswith`, …) are given
as executable Lean functions on character lists, so that every definition can
be evaluated on concrete inputs inside the kernel.  Machine-level details
(UTF-8 byte positions) play no role in the verified code paths.

Fallible Python code (uncaught exceptions) is modelled with `Except`/`Option`.
Filesystem-dependent primitives (existence checks, archive extraction targets)
are parametrised by an explicit `FileSystem` record.
-/

namespace Jimmy

deriving instance DecidableEq for Except

/-- Python `str` modelled as a list of characters. -/
abbrev PyStr := List Char

/-- Python `s.split(sep)` for a single-character separator: splits at every
occurrence, keeping empty parts (`"a  b".split(" ") == ["a", "", "b"]`,
`"".split(" ") == [""]`). -/
def pysplit (sep : Char) : PyStr → List PyStr
  | [] => [[]]
  | a :: rest =>
    match pysplit sep rest with
    | [] => [[]]
    | w :: ws => if a = sep then [] :: w :: ws else (a :: w) :: ws

/-- Python `s.split(sep, maxsplit=1)` for a multi-character separator:
`some (before, after)` at the first occurrence of `sep`, `none` when `sep`
does not occur. -/
def pysplit_first (sep : PyStr) : PyStr → Option (PyStr × PyStr)
  | [] => none
  | a :: rest =>
    if sep.isPrefixOf (a :: rest) then some ([], (a :: rest).drop sep.length)
    else (pysplit_first sep rest).map (fun p => (a :: p.1, p.2))

/-- Python `s.strip()`: remove leading and trailing whitespace. -/
def pystrip (s : PyStr) : PyStr :=
  ((s.dropWhile Char.isWhitespace).reverse.dropWhile Char.isWhitespace).reverse

/-- Python `s.split()` (no argument): split on whitespace runs, dropping
empty words. -/
def pysplit_ws (s : PyStr) : List PyStr :=
  (s.splitOnP Char.isWhitespace).filter (fun w => ¬ w.isEmpty)

/-- Python `s.lower()` (ASCII case folding suffices for the extensions
compared by the converter). -/
def pylower (s : PyStr) : PyStr := s.map Char.toLower

/-- Index of the last occurrence of `c` in `l` (Python `s.rfind(c)` when the
character occurs; `none` models the return value `-1`). -/
def rfind_idx (c : Char) (l : PyStr) : Option Nat :=
  ((l.enum.filter (fun p => p.2 = c)).getLast?).map (fun p => p.1)

/-- `pathlib.PurePath.name`: the final path component. -/
def path_name (p : PyStr) : PyStr := ((pysplit '/' p).getLast?).getD []

/-- `pathlib.PurePath.suffix`: the final `.`-suffix of the name, empty when
the last dot is the first character of the name or its last character.  In
particular `Path("a.tar.gz").suffix == ".gz"` — only the LAST dotted part. -/
def path_suffix (p : PyStr) : PyStr :=
  let nm := path_name p
  match rfind_idx '.' nm with
  | none => []
  | some i => if 0 < i ∧ i < nm.length - 1 then nm.drop i else []

/-- `pathlib.PurePath.stem`: the name with the final suffix removed. -/
def path_stem (p : PyStr) : PyStr :=
  let nm := path_name p
  nm.take (nm.length - (path_suffix p).length)

/-- `input_.suffix.lower()` as used throughout `converter.py`. -/
def suffix_lower (p : PyStr) : PyStr := pylower (path_suffix p)

/-! ## `formats/tiddlywiki.py` — `split_tags` (C9) and tiddler conversion (C4) -/

/-- The accumulation loop of `split_tags` (`formats/tiddlywiki.py`).
`acc` is the Python variable `space_separated_tag` (the empty string doubles
as the "not accumulating" flag, exactly as in the source); an accumulator
still open when the parts run out is discarded, as in the source. -/
def split_tags_loop : List PyStr → PyStr → List PyStr
  | [], _acc => []
  | part :: rest, acc =>
    if acc ≠ [] then
      if "]]".toList.isSuffixOf part then
        (acc ++ [' '] ++ part.take (part.length - 2)) :: split_tags_loop rest []
      else
        split_tags_loop rest (acc ++ [' '] ++ part)
    else
      if "[[".toList.isPrefixOf part then
        split_tags_loop rest (part.drop 2)
      else
        part :: split_tags_loop rest acc

/-- `split_tags` (`formats/tiddlywiki.py` lines 19–49): tags are
space-separated; a `[[...]]` group with literal spaces is one tag; an
all-whitespace tag string yields no tags. -/
def split_tags (tag_string : PyStr) : List PyStr :=
  if pystrip tag_string = [] then []
  else split_tags_loop (pysplit ' ' tag_string) []

/-! ## `markdown_lib/common.py` / `common.py` — `get_inline_tags` (C8) -/

/-- The filter condition of `get_inline_tags`: the word starts with one of the
marker characters, is longer than one character, and contains at least one
non-marker character. -/
def inline_tag_word (start_characters : List Char) (word : PyStr) : Bool :=
  (start_characters.any (fun c => [c].isPrefixOf word)) &&
    word.length > 1 &&
    (word.any (fun ch => ¬ start_characters.contains ch))

/-- `get_inline_tags` (`markdown_lib/common.py` lines 170–193, identical copy
in `common.py` lines 165–188): collect `word[1:]` for every whitespace-
separated word passing `inline_tag_word` into a set (the Python `set` is
modelled as a `Finset`; `list(tags)` returns its elements). -/
def get_inline_tags (text : PyStr) (start_characters : List Char) : Finset PyStr :=
  (((pysplit_ws text).filter (inline_tag_word start_characters)).map
    (fun w => w.drop 1)).toFinset

/-! ## `formats/synology_note_station.py` — `deduplicate_note_title` (C1) -/

/-- The fields of a Python `datetime` needed by the strftime calls of
`deduplicate_note_title`. -/
structure PyDateTime where
  year : Nat
  month : Nat
  day : Nat
  hour : Nat
  minute : Nat

/-- Two-digit zero-padded decimal rendering (strftime `%H`, `%M`, `%m`, `%d`
for in-range values). -/
def pad2 (n : Nat) : PyStr := [Char.ofNat (48 + n / 10 % 10), Char.ofNat (48 + n % 10)]

/-- Four-digit zero-padded decimal rendering (strftime `%Y` for years below
10000). -/
def pad4 (n : Nat) : PyStr :=
  [Char.ofNat (48 + n / 1000 % 10), Char.ofNat (48 + n / 100 % 10),
   Char.ofNat (48 + n / 10 % 10), Char.ofNat (48 + n % 10)]

/-- `created.strftime("%H%M")`. -/
def strftime_HM (d : PyDateTime) : PyStr := pad2 d.hour ++ pad2 d.minute

/-- `created.strftime("%m-%d-%Y")`. -/
def strftime_mdY (d : PyDateTime) : PyStr :=
  pad2 d.month ++ ['-'] ++ pad2 d.day ++ ['-'] ++ pad4 d.year

/-- The collision test of `deduplicate_note_title`:
`note_imf.title[:max_name_length] in [note.title[:max_name_length] for note
in parent_notebook.child_notes]`. -/
def title_collides (parent_titles : List PyStr) (max_name_length : Nat)
    (title : PyStr) : Bool :=
  (parent_titles.map (fun t => t.take max_name_length)).contains
    (title.take max_name_length)

/-- `Converter.deduplicate_note_title` (`formats/synology_note_station.py`
lines 163–179).  `parent_titles` are the titles of the notes already in the
parent notebook, `created` is the note's creation time, and `title` is the
(mutable, in Python) note title; the function returns the final title.  The
Python default `max_name_length=50` is passed explicitly at every use. -/
def deduplicate_note_title (parent_titles : List PyStr) (created : PyDateTime)
    (max_name_length : Nat) (includes_date : Bool) (title : PyStr) : PyStr :=
  if title_collides parent_titles max_name_length title then
    if includes_date then
      title ++ [' '] ++ strftime_HM created
    else
      deduplicate_note_title parent_titles created max_name_length true
        ((if title.length ≥ max_name_length then
            title.take (max_name_length - 11) else title) ++ [' '] ++
          strftime_mdY created)
  else
    title
termination_by if includes_date then 0 else 1
decreasing_by
  simp_all

/-- The deduplication procedure as the SPEC words it (first pass appends
`HHMM`; only if the title still collides does the retry truncate to 39
characters and append `MM-DD-YYYY`).  Stated only for comparison with
`deduplicate_note_title`, which is translated from the source. -/
def deduplicate_note_title_per_spec (parent_titles : List PyStr)
    (created : PyDateTime) (max_name_length : Nat) (includes_date : Bool)
    (title : PyStr) : PyStr :=
  if title_collides parent_titles max_name_length title then
    if includes_date then
      (if title.length ≥ max_name_length then
        title.take (max_name_length - 11) else title) ++ [' '] ++
        strftime_mdY created
    else
      deduplicate_note_title_per_spec parent_titles created max_name_length true
        (title ++ [' '] ++ strftime_HM created)
  else
    title
termination_by if includes_date then 0 else 1
decreasing_by
  simp_all

/-! ## `formats/synology_note_station.py` — internal-link resolution (C7) -/

/-- `markdown_lib.common.MarkdownLink` (a dataclass with fields `text`,
`url`, `is_image`). -/
structure MarkdownLink where
  text : PyStr
  url : PyStr
  is_image : Bool
deriving DecidableEq

/-- `MarkdownLink.__str__`: `![text](url)` for images, `[text](url)`
otherwise. -/
def mdlink_str (l : MarkdownLink) : PyStr :=
  (if l.is_image then ['!'] else []) ++ ['['] ++ l.text ++ "](".toList ++ l.url ++ [')']

/-- `MarkdownLink.is_web_link`: the URL begins with `http`. -/
def mdlink_is_web_link (l : MarkdownLink) : Bool := "http".toList.isPrefixOf l.url

/-- `MarkdownLink.is_mail_link`: the URL begins with `mailto:`. -/
def mdlink_is_mail_link (l : MarkdownLink) : Bool := "mailto:".toList.isPrefixOf l.url

/-- `imf.NoteLink(original_text, original_id, title)`. -/
structure NoteLink where
  original_text : PyStr
  original_id : PyStr
  title : PyStr
deriving DecidableEq

/-- Python `max(xs, key=f)` once the first element has been split off:
the running best is replaced exactly when a later element's key is strictly
greater, so on ties the earlier element wins. -/
def py_max_go {α : Type} (key : α → ℚ) : α → List α → α
  | best, [] => best
  | best, x :: xs => py_max_go key (if key best < key x then x else best) xs

/-- Python `max(xs, key=f)`: `none` models the `ValueError` on an empty
iterable. -/
def py_max {α : Type} (key : α → ℚ) : List α → Option α
  | [] => none
  | x :: xs => some (py_max_go key x xs)

/-- The closure `get_match_ratio` of `Converter.handle_markdown_links`
(`formats/synology_note_station.py` lines 86–89): the similarity of the
link's display text to the candidate's title.  `ratio` abstracts
`difflib.SequenceMatcher(None, link_text, title).ratio()` (Python stdlib,
outside this repository); the note-id→title dict is modelled as its
insertion-ordered association list. -/
def get_match_ratio (ratio : PyStr → PyStr → ℚ) (link_text : PyStr)
    (entry : PyStr × PyStr) : ℚ :=
  ratio link_text entry.2

/-- `best_match_id = max(note_id_title_map, key=get_match_ratio)`
(`formats/synology_note_station.py` line 91). -/
def best_match_id (ratio : PyStr → PyStr → ℚ) (link_text : PyStr)
    (note_id_title_map : List (PyStr × PyStr)) : Option PyStr :=
  (py_max (get_match_ratio ratio link_text) note_id_title_map).map (fun e => e.1)

/-- The `notestation://` branch of `Converter.handle_markdown_links`
(lines 77–92): the produced `imf.NoteLink(str(link), best_match_id,
link.text)`. -/
def resolve_notestation_link (ratio : PyStr → PyStr → ℚ) (link : MarkdownLink)
    (note_id_title_map : List (PyStr × PyStr)) : Option NoteLink :=
  (best_match_id ratio link.text note_id_title_map).map
    (fun best => ⟨mdlink_str link, best, link.text⟩)

/-! ## `converter.py` — `prepare_input`, `has_valid_format`,
`convert_multiple` (C2, C3) -/

/-- The Python exceptions reachable in the modelled converter paths. -/
inductive PyErr where
  | fileNotFoundError
  | assertionError
deriving DecidableEq

/-- The filesystem facts the converter framework consults: whether a path
exists, whether it is a directory, the fresh temporary folder each archive
extraction would use, and the single child folder of an extracted archive
(`none` when the `get_single_child_folder` assertion would fail). -/
structure FileSystem where
  path_exists : PyStr → Bool
  is_dir : PyStr → Bool
  tar_temp_folder : PyStr → PyStr
  zip_temp_folder : PyStr → PyStr
  single_child_folder : PyStr → Option PyStr

/-- `common.extract_tar` (`common.py` lines 218–223): `tarfile.open` raises
`FileNotFoundError` on a missing path; otherwise the archive is extracted
into a fresh temporary folder. -/
def extract_tar (fs : FileSystem) (input_ : PyStr) : Except PyErr PyStr :=
  if fs.path_exists input_ then .ok (fs.tar_temp_folder input_)
  else .error .fileNotFoundError

/-- `common.extract_zip` (`common.py` lines 226–234): `zipfile.ZipFile`
raises `FileNotFoundError` on a missing path; otherwise the archive is
extracted into a fresh temporary folder. -/
def extract_zip (fs : FileSystem) (input_ : PyStr) : Except PyErr PyStr :=
  if fs.path_exists input_ then .ok (fs.zip_temp_folder input_)
  else .error .fileNotFoundError

/-- `common.get_single_child_folder` (`common.py` lines 206–210): asserts
that exactly one child folder exists and returns it. -/
def get_single_child_folder (fs : FileSystem) (parent_folder : PyStr) :
    Except PyErr PyStr :=
  match fs.single_child_folder parent_folder with
  | some c => .ok c
  | none => .error .assertionError

/-- `BaseConverter.prepare_input` (`converter.py` lines 26–38): dispatch on
`input_.suffix.lower()`.  The `".tar.gz"` pattern is kept although
`path_suffix` can never produce it (Python `Path.suffix` is only the last
dotted part), exactly as in the source. -/
def prepare_input (fs : FileSystem) (input_ : PyStr) : Except PyErr PyStr :=
  let sfx := suffix_lower input_
  if sfx = ".bear2bk".toList ∨ sfx = ".textpack".toList then
    match extract_zip fs input_ with
    | .ok temp_folder => get_single_child_folder fs temp_folder
    | .error e => .error e
  else if sfx = ".jex".toList ∨ sfx = ".tgz".toList ∨ sfx = ".tar.gz".toList then
    extract_tar fs input_
  else if sfx = ".apkg".toList ∨ sfx = ".nsx".toList ∨ sfx = ".zip".toList ∨
      sfx = ".zkn3".toList then
    extract_zip fs input_
  else
    .ok input_

/-- The class-level configuration of a concrete converter:
`accepted_extensions` (possibly the wildcard list `["*"]`) and
`accept_folder`. -/
structure ConverterClass where
  accepted_extensions : Option (List PyStr)
  accept_folder : Bool

/-- `BaseConverter.has_valid_format` (`converter.py` lines 40–47). -/
def has_valid_format (cls : ConverterClass) (fs : FileSystem)
    (input_ : PyStr) : Bool :=
  match cls.accepted_extensions with
  | some exts =>
    (exts.contains (suffix_lower input_) || exts == ["*".toList]) ||
      (cls.accept_folder && fs.is_dir input_)
  | none => cls.accept_folder && fs.is_dir input_

/-- Python `str(i)` for a natural number index. -/
def nat_str (n : Nat) : PyStr := (Nat.toDigits 10 n)

/-- The loop body of `BaseConverter.convert_multiple` (`converter.py` lines
49–68), from input index `i` on.  Note the source order: `prepare_input`
runs BEFORE the `file_or_folder.exists()` sanity check, so an exception it
raises propagates (modelled by `.error`); a missing or invalid-format input
after that point is skipped with a warning.  `conv` abstracts the
subclass's `convert`; a collected root notebook is represented by its title
`output_folder.name + index_suffix`. -/
def convert_multiple_from (cls : ConverterClass) (fs : FileSystem)
    (conv : PyStr → Except PyErr Unit) (output_folder_name : PyStr)
    (total : Nat) : Nat → List PyStr → Except PyErr (List PyStr)
  | _, [] => .ok []
  | i, input_ :: rest =>
    let index_suffix : PyStr := if total = 1 then [] else [' '] ++ nat_str i
    let root_notebook_title := output_folder_name ++ index_suffix
    match prepare_input fs input_ with
    | .error e => .error e
    | .ok _ =>
      if ¬ fs.path_exists input_ then
        convert_multiple_from cls fs conv output_folder_name total (i + 1) rest
      else if ¬ has_valid_format cls fs input_ then
        convert_multiple_from cls fs conv output_folder_name total (i + 1) rest
      else
        match conv input_ with
        | .error e => .error e
        | .ok _ =>
          match convert_multiple_from cls fs conv output_folder_name total
              (i + 1) rest with
          | .error e => .error e
          | .ok nbs => .ok (root_notebook_title :: nbs)

/-- `BaseConverter.convert_multiple` (`converter.py` lines 49–68). -/
def convert_multiple (cls : ConverterClass) (fs : FileSystem)
    (conv : PyStr → Except PyErr Unit) (output_folder_name : PyStr)
    (files_or_folders : List PyStr) : Except PyErr (List PyStr) :=
  convert_multiple_from cls fs conv output_folder_name
    files_or_folders.length 0 files_or_folders

/-! ## `formats/tiddlywiki.py` — tiddler conversion (C4) -/

/-- The JSON fields of a tiddler consulted by `Converter.convert_json` /
`Converter.convert_tid`.  `mime` is the JSON field `"type"`;
`canonical_uri` is `"_canonical_uri"`; `alt_text` is `"alt-text"`; absent
fields are `none`. -/
structure Tiddler where
  title : PyStr
  mime : Option PyStr
  text : Option PyStr
  source : Option PyStr
  canonical_uri : Option PyStr
  alt_text : Option PyStr
  tags : Option PyStr
  created : Option PyStr
  modified : Option PyStr
  creator : Option PyStr

/-- The `imf.Note` data produced by the TiddlyWiki converter.  `tags` holds
the tag titles from `split_tags` (an `imf.Tag`'s `reference_id` defaults to
its title — modelled from the spec §3, `intermediate_format.py` is not part
of the provided source).  Timestamps are carried as the vendor's raw
`YYYYMMDDHHMMSSmmm` strings; `strptime` (Python stdlib) is not modelled. -/
structure TiddlyNote where
  title : PyStr
  body : PyStr
  author : Option PyStr
  tags : List PyStr
  created : Option PyStr
  updated : Option PyStr
deriving DecidableEq

/-- One iteration of the tiddler loop of `Converter.convert_json`
(`formats/tiddlywiki.py` lines 60–114): `none` when the loop `continue`s
without appending a note (the `image/svg+xml` skip and the `$:/tags/`
system-tiddler skip), `some note` for the note appended to the root
notebook.  `wikitext_to_md` abstracts `markdown_lib.tiddlywiki
.wikitext_to_md` (not part of the provided source); `unique_title`
abstracts `common.unique_title()`; `resource_folder` is the converter's
temporary resource folder. -/
def convert_json_one (wikitext_to_md : PyStr → PyStr) (unique_title : PyStr)
    (resource_folder : PyStr) (tiddler : Tiddler) : Option TiddlyNote :=
  let mime := tiddler.mime.getD []
  if mime = "image/svg+xml".toList then none
  else
    let body :=
      if ("image/".toList.isPrefixOf mime) || mime = "application/pdf".toList ||
          mime = "audio/mp3".toList then
        match tiddler.text with
        | some _ =>
          let temp_filename := resource_folder ++ ['/'] ++
            (tiddler.alt_text.getD unique_title)
          ['!', '['] ++ path_name temp_filename ++ "](".toList ++
            temp_filename ++ [')']
        | none =>
          match tiddler.source with
          | some src => ['!', '['] ++ tiddler.title ++ "](".toList ++ src ++ [')']
          | none =>
            match tiddler.canonical_uri with
            | some uri => ['['] ++ tiddler.title ++ "](".toList ++ uri ++ [')']
            | none => wikitext_to_md (tiddler.text.getD [])
      else if mime = "application/json".toList then
        "```\n".toList ++ tiddler.text.getD [] ++ "\n```".toList
      else
        wikitext_to_md (tiddler.text.getD [])
    let tags := split_tags (tiddler.tags.getD [])
    if tags.any (fun tg => "$:/tags/".toList.isPrefixOf tg) then none
    else
      some ⟨tiddler.title, body, tiddler.creator, tags, tiddler.created,
        tiddler.modified⟩

/-- `Converter.convert_json` (`formats/tiddlywiki.py` lines 60–114): the
notes appended to the root notebook, in order. -/
def convert_json (wikitext_to_md : PyStr → PyStr) (unique_title : PyStr)
    (resource_folder : PyStr) (tiddlers : List Tiddler) : List TiddlyNote :=
  tiddlers.filterMap (convert_json_one wikitext_to_md unique_title resource_folder)

/-- The Python exceptions reachable in the modelled `.tid` parsing:
`ValueError` from tuple-unpacking a `split` that found no separator,
`KeyError` from a missing metadata key. -/
inductive TidErr where
  | valueError
  | keyError
deriving DecidableEq

/-- The metadata loop of `Converter.convert_tid`: each line is split on
`": "` (`line.split(": ", 1)`), a line without the separator raises
`ValueError` on unpacking. -/
def parse_tid_metadata : List PyStr → Except TidErr (List (PyStr × PyStr))
  | [] => .ok []
  | line :: rest =>
    match pysplit_first ": ".toList line with
    | none => .error .valueError
    | some kv => (parse_tid_metadata rest).map (fun m => kv :: m)

/-- Python dict lookup over the insertion-ordered pair list (a later
assignment to the same key wins). -/
def dict_get (m : List (PyStr × PyStr)) (k : PyStr) : Option PyStr :=
  (m.reverse.find? (fun p => p.1 == k)).map (fun p => p.2)

/-- `Converter.convert_tid` (`formats/tiddlywiki.py` lines 116–134): parse
the `.tid` file content and return the note appended to the root notebook.
The note is appended UNCONDITIONALLY — unlike `convert_json`, this path has
no `$:/tags/` system-tiddler check.  `created`/`modified` are required
(missing keys raise `KeyError`). -/
def convert_tid (wikitext_to_md : PyStr → PyStr) (tiddler : PyStr) :
    Except TidErr TiddlyNote :=
  match pysplit_first "\n\n".toList tiddler with
  | none => .error .valueError
  | some (metadata_raw, body_wikitext) =>
    match parse_tid_metadata (pysplit '\n' metadata_raw) with
    | .error e => .error e
    | .ok metadata =>
      match dict_get metadata "title".toList with
      | none => .error .keyError
      | some title =>
        match dict_get metadata "created".toList,
            dict_get metadata "modified".toList with
        | some created, some modified =>
          .ok ⟨title, wikitext_to_md body_wikitext,
            dict_get metadata "creator".toList,
            split_tags ((dict_get metadata "tags".toList).getD []),
            some created, some modified⟩
        | _, _ => .error .keyError

/-! ## `apps/obsidian.py` — legacy markdown-link handling (C5) -/

/-- `imf.Resource(path, original_text, title)` as used by the legacy
Obsidian adapter. -/
structure ObsResource where
  path : PyStr
  original_text : PyStr
  title : PyStr
deriving DecidableEq

/-- The tuple unpacking `for file_prefix, description, url in
common.get_markdown_links(body)` (`apps/obsidian.py` line 17) applied to one
list element.  `common.get_markdown_links` (`common.py` lines 133–155)
returns `MarkdownLink` dataclass instances (`MD.images + MD.links`); a
dataclass without `__iter__` cannot be unpacked, so the unpacking raises
`TypeError` — there is no value the triple could take. -/
def unpack3_markdown_link (_l : MarkdownLink) :
    Except PyStr (PyStr × PyStr × PyStr) :=
  .error "TypeError: cannot unpack non-iterable MarkdownLink object".toList

/-- `handle_markdown_links` (`apps/obsidian.py` lines 13–31), given the
result of `common.get_markdown_links(body)`.  `find_file` abstracts
`common.find_file_recursively(root_folder, url)`; `unquote` abstracts
`urllib.parse.unquote`.  Each element is first tuple-unpacked into
`(file_prefix, description, url)`; the classification body is translated
although the unpacking of a `MarkdownLink` necessarily raises. -/
def obsidian_handle_markdown_links (find_file : PyStr → Option PyStr)
    (unquote : PyStr → PyStr) :
    List MarkdownLink → Except PyStr (List ObsResource × List NoteLink)
  | [] => .ok ([], [])
  | l :: rest =>
    match unpack3_markdown_link l with
    | .error e => .error e
    | .ok (fp, desc, url) =>
      if "http".toList.isPrefixOf url then
        obsidian_handle_markdown_links find_file unquote rest
      else
        let original_text := fp ++ ['['] ++ desc ++ "](".toList ++ url ++ [')']
        if ".md".toList.isSuffixOf url then
          match obsidian_handle_markdown_links find_file unquote rest with
          | .error e => .error e
          | .ok (rs, nls) =>
            .ok (rs, ⟨original_text, path_stem (unquote url), desc⟩ :: nls)
        else
          match find_file url with
          | none => obsidian_handle_markdown_links find_file unquote rest
          | some rp =>
            match obsidian_handle_markdown_links find_file unquote rest with
            | .error e => .error e
            | .ok (rs, nls) => .ok (⟨rp, original_text, desc⟩ :: rs, nls)

/-! ## `converter.py` — `remove_empty_notebooks` (C6, C10) -/

/-- `imf.Notebook`, reduced to the fields `remove_empty_notebooks` touches:
title, the notes list (note contents are opaque here), and the child
notebooks. -/
inductive Notebook where
  | mk (title : String) (child_notes : List String) (child_notebooks : List Notebook)

/-- The notebook's title. -/
def Notebook.title : Notebook → String
  | .mk t _ _ => t

/-- The notebook's notes. -/
def Notebook.child_notes : Notebook → List String
  | .mk _ ns _ => ns

/-- The notebook's child notebooks. -/
def Notebook.child_notebooks : Notebook → List Notebook
  | .mk _ _ cs => cs

/-- Modelled from the spec: `Notebook.is_empty()` lives in
`intermediate_format.py`, which is not part of the provided source; spec
§4.1 defines it as "true iff it has no notes and all descendant notebooks
are empty". -/
def Notebook.is_empty : Notebook → Bool
  | .mk _ ns cs => ns.isEmpty && cs.attach.all (fun c => c.1.is_empty)
decreasing_by
  have := List.sizeOf_lt_of_mem c.2
  simp
  omega

/-- `BaseConverter.remove_empty_notebooks` (`converter.py` lines 85–96):
recursively prune each child notebook, then keep only the children that are
not empty; the notebook it is invoked on is itself never removed. -/
def remove_empty_notebooks : Notebook → Notebook
  | .mk t ns cs =>
    .mk t ns ((cs.attach.map (fun c => remove_empty_notebooks c.1)).filter
      (fun c => !c.is_empty))
decreasing_by
  have := List.sizeOf_lt_of_mem c.2
  simp
  omega

/-- A notebook contains at least one note at some depth.  (Used to state
which subtrees C6 says the pruning removes.) -/
def Notebook.contains_note : Notebook → Bool
  | .mk _ ns cs => !ns.isEmpty || cs.attach.any (fun c => c.1.contains_note)
decreasing_by
  have := List.sizeOf_lt_of_mem c.2
  simp
  omega

/-- The pruning as the SPEC words it: remove exactly the child subtrees
containing zero notes at every depth, keep (and recursively prune) every
child containing a note somewhere.  Stated only for comparison with
`remove_empty_notebooks`, which is translated from the source. -/
def remove_empty_notebooks_per_spec : Notebook → Notebook
  | .mk t ns cs =>
    .mk t ns ((cs.filter Notebook.contains_note).attach.map
      (fun c => remove_empty_notebooks_per_spec c.1))
decreasing_by
  have h1 := (List.mem_filter.mp c.2).1
  have := List.sizeOf_lt_of_mem h1
  simp
  omega

/-- All notebooks of a tree (the root and, recursively, every
descendant). -/
def all_notebooks : Notebook → List Notebook
  | .mk t ns cs => .mk t ns cs :: (cs.attach.map (fun c => all_notebooks c.1)).flatten
decreasing_by
  have := List.sizeOf_lt_of_mem c.2
  simp
  omega

/-! ## Concrete instances used by the claim theorems -/

/-- A converter class accepting `.zip` and `.txt` (exercises C2). -/
def cls_zip_txt : ConverterClass := ⟨some [".zip".toList, ".txt".toList], false⟩

/-- A filesystem on which no path exists. -/
def fs_nothing : FileSystem :=
  ⟨fun _ => false, fun _ => false, fun p => "tar/".toList ++ p,
   fun p => "zip/".toList ++ p, fun _ => none⟩

/-- A filesystem on which only `ok.txt` exists. -/
def fs_only_ok_txt : FileSystem :=
  ⟨fun p => p == "ok.txt".toList, fun _ => false, fun p => "tar/".toList ++ p,
   fun p => "zip/".toList ++ p, fun _ => none⟩

/-- A filesystem on which every path exists; extraction of archive `p` lands
in `tar/p` resp. `zip/p`, whose single child folder is `p/child`. -/
def fs_everything : FileSystem :=
  ⟨fun _ => true, fun _ => false, fun p => "tar/".toList ++ p,
   fun p => "zip/".toList ++ p, fun p => some (p ++ "/child".toList)⟩

/-- A `convert` implementation that always succeeds (the subclass hook is
irrelevant to the orchestration behaviour under test). -/
def conv_ok : PyStr → Except PyErr Unit := fun _ => .ok ()

/-- A plain tiddler (text `b`, tags `a b2`, no MIME type). -/
def plain_tiddler : Tiddler :=
  ⟨"T".toList, none, some "b".toList, none, none, none, some "a b2".toList,
    none, none, none⟩

/-! # Theorems -/

/-! ## Generic list helpers -/

theorem list_attach_all {α : Type} (l : List α) (p : α → Bool) :
    (l.attach.all fun c => p c.1) = l.all p := by
  rw [Bool.eq_iff_iff]
  simp [List.all_eq_true]

theorem list_attach_any {α : Type} (l : List α) (p : α → Bool) :
    (l.attach.any fun c => p c.1) = l.any p := by
  rw [Bool.eq_iff_iff]
  simp [List.any_eq_true]

theorem list_all_congr {α : Type} {l : List α} {p q : α → Bool}
    (h : ∀ a ∈ l, p a = q a) : l.all p = l.all q := by
  rw [Bool.eq_iff_iff]
  simp only [List.all_eq_true]
  constructor
  · intro hh a ha
    rw [← h a ha]
    exact hh a ha
  · intro hh a ha
    rw [h a ha]
    exact hh a ha

theorem list_filter_of_map {α β : Type} (l : List α) (f : α → β) (p : β → Bool) :
    (l.map f).filter p = (l.filter fun a => p (f a)).map f := by
  induction l with
  | nil => rfl
  | cons a t ih =>
    simp only [List.map_cons, List.filter_cons]
    split <;> simp [ih]

theorem list_filter_not_all {α : Type} (l : List α) (p : α → Bool) :
    ((l.filter fun a => !p a).all p) = l.all p := by
  induction l with
  | nil => rfl
  | cons a t ih =>
    simp only [List.filter_cons]
    cases hpa : p a <;> simp [hpa, ih]

/-- Structural induction over `Notebook` with the member hypothesis. -/
theorem Notebook.rec_mem {P : Notebook → Prop}
    (h : ∀ t ns cs, (∀ c ∈ cs, P c) → P (.mk t ns cs)) : ∀ nb, P nb
  | .mk t ns cs => h t ns cs (fun c _hc => Notebook.rec_mem h c)
termination_by nb => sizeOf nb
decreasing_by
  have := List.sizeOf_lt_of_mem _hc
  simp
  omega

/-! ## C9 -/

theorem split_tags_loop_passthrough (parts : List PyStr)
    (h : ∀ t ∈ parts, ¬ "[[".toList.isPrefixOf t) :
    split_tags_loop parts [] = parts := by
  induction parts with
  | nil => rfl
  | cons a rest ih =>
    rw [split_tags_loop]
    rw [if_neg (by simp)]
    rw [if_neg (by simpa using h a (by simp))]
    rw [ih (fun t ht => h t (by simp [ht]))]

/-- C9: `split_tags` is idempotent on its output: a non-blank tag string of
space-separated tokens free of bracket syntax (no token starts with `[[` or
ends with `]]`) is returned as exactly those tokens, unchanged;
`"[[tag with spaces]]"` yields the single tag `"tag with spaces"` (brackets
removed, interior spaces preserved); and the empty string yields the empty
list. -/
theorem C9_split_tags_idempotent_on_output :
    (∀ s : PyStr, pystrip s ≠ [] →
      (∀ t ∈ pysplit ' ' s,
        ¬ "[[".toList.isPrefixOf t ∧ ¬ "]]".toList.isSuffixOf t) →
      split_tags s = pysplit ' ' s) ∧
    split_tags "[[tag with spaces]]".toList = ["tag with spaces".toList] ∧
    split_tags "".toList = [] := by
  refine ⟨?_, by decide, by decide⟩
  intro s hs ht
  rw [split_tags, if_neg hs]
  exact split_tags_loop_passthrough _ (fun t h => (ht t h).1)

/-- C9 witness: a concrete bracket-free tag string passes through
unchanged. -/
theorem C9_witness : split_tags "tag1 tag2 tag3".toList =
    ["tag1".toList, "tag2".toList, "tag3".toList] := by
  have h := C9_split_tags_idempotent_on_output.1 "tag1 tag2 tag3".toList
    (by decide) (by decide)
  rw [h]
  decide

/-! ## C8 -/

/-- C8: `get_inline_tags` (i) returns `t` iff some whitespace-separated word
of the text qualifies (starts with a marker character, is longer than one
character, contains a non-marker character) and yields `t` when its leading
marker is stripped — as a set, so each such token appears exactly once;
(ii) never lets a word composed solely of marker characters qualify; and
concretely (iii) `"### h3"` with marker `#` yields no tags while
`"#tag abc"` yields exactly `tag`. -/
theorem C8_get_inline_tags_characterisation :
    (∀ (text : PyStr) (chars : List Char) (t : PyStr),
      t ∈ get_inline_tags text chars ↔
        ∃ w ∈ pysplit_ws text, inline_tag_word chars w = true ∧ w.drop 1 = t) ∧
    (∀ (chars : List Char) (w : PyStr),
      (∀ c ∈ w, c ∈ chars) → inline_tag_word chars w = false) ∧
    get_inline_tags "### h3".toList ['#'] = ∅ ∧
    get_inline_tags "#tag abc".toList ['#'] = {"tag".toList} := by
  refine ⟨?_, ?_, by decide, by decide⟩
  · intro text chars t
    simp only [get_inline_tags, List.mem_toFinset, List.mem_map,
      List.mem_filter]
    constructor
    · rintro ⟨w, ⟨hw, hq⟩, hd⟩
      exact ⟨w, hw, hq, hd⟩
    · rintro ⟨w, hw, hq, hd⟩
      exact ⟨w, ⟨hw, hq⟩, hd⟩
  · intro chars w hall
    have h2 : (w.any fun ch => ¬ chars.contains ch) = false := by
      rw [List.any_eq_false]
      intro c hc
      simpa using hall c hc
    simp [inline_tag_word, h2]
    intro x _hx _hpre _hlen
    exact hall

/-- C8 witness: the characterisation applied at `"#tag @abc"` with markers
`#`, `@`. -/
theorem C8_witness :
    "abc".toList ∈ get_inline_tags "#tag @abc".toList ['#', '@'] := by
  exact (C8_get_inline_tags_characterisation.1 "#tag @abc".toList ['#', '@']
    "abc".toList).mpr ⟨"@abc".toList, by decide, by decide, by decide⟩

/-! ## C1 -/

/-- C1 counterexample: with a note titled `"note"` already in the parent and
a second `"note"` created 2003-01-02 13:45, the FIRST deduplication pass of
the source produces `"note 01-02-2003"` (the `MM-DD-YYYY` suffix), while the
claim's description of the procedure (first pass appends `HHMM`) yields
`"note 1345"` — the two strategies are applied in the opposite order. -/
theorem C1_counterexample :
    deduplicate_note_title ["note".toList] ⟨2003, 1, 2, 13, 45⟩ 50 false
        "note".toList = "note 01-02-2003".toList ∧
    deduplicate_note_title_per_spec ["note".toList] ⟨2003, 1, 2, 13, 45⟩ 50 false
        "note".toList = "note 1345".toList ∧
    ("note 01-02-2003".toList : PyStr) ≠ "note 1345".toList := by
  refine ⟨?_, ?_, by decide⟩
  · rw [deduplicate_note_title]
    rw [if_pos (by decide), if_neg (by decide), if_neg (by decide)]
    have e1 : strftime_mdY ⟨2003, 1, 2, 13, 45⟩ = "01-02-2003".toList := by decide
    rw [e1]
    rw [deduplicate_note_title]
    rw [if_neg (by decide)]
    decide
  · rw [deduplicate_note_title_per_spec]
    rw [if_pos (by decide), if_neg (by decide)]
    have e2 : strftime_HM ⟨2003, 1, 2, 13, 45⟩ = "1345".toList := by decide
    rw [e2]
    rw [deduplicate_note_title_per_spec]
    rw [if_neg (by decide)]
    decide

/-- C1 (amended): when a new note's title shares its first 50 characters
with an existing note of the same parent notebook, the FIRST deduplication
pass truncates the title to 39 characters (only when it is at least 50
characters long) and appends the created-time `MM-DD-YYYY` suffix; only if
the resulting title still collides does the recursive "includes timestamp"
pass append the `HHMM` suffix as well. -/
theorem C1_dedup_first_date_then_time (parent_titles : List PyStr)
    (created : PyDateTime) (title : PyStr)
    (h : title_collides parent_titles 50 title = true) :
    deduplicate_note_title parent_titles created 50 false title =
      (if title_collides parent_titles 50
          ((if title.length ≥ 50 then title.take 39 else title) ++ [' '] ++
            strftime_mdY created) = true then
        ((if title.length ≥ 50 then title.take 39 else title) ++ [' '] ++
          strftime_mdY created) ++ [' '] ++ strftime_HM created
      else
        (if title.length ≥ 50 then title.take 39 else title) ++ [' '] ++
          strftime_mdY created) := by
  rw [deduplicate_note_title, if_pos h, if_neg (by decide)]
  rw [deduplicate_note_title]
  norm_num

/-- C1 witness: the amended statement applied to a colliding five-character
title. -/
theorem C1_witness :
    deduplicate_note_title ["alpha".toList] ⟨2001, 12, 31, 23, 59⟩ 50 false
        "alpha".toList = "alpha 12-31-2001".toList := by
  have h := C1_dedup_first_date_then_time ["alpha".toList]
    ⟨2001, 12, 31, 23, 59⟩ "alpha".toList (by decide)
  rw [h]
  have e1 : strftime_mdY ⟨2001, 12, 31, 23, 59⟩ = "12-31-2001".toList := by decide
  rw [if_neg (by rw [e1]; decide), e1]
  decide

/-! ## C2 -/

/-- C2: evaluating `convert_multiple` at a missing input shows that a
missing input is NOT always non-fatal: a missing `.zip` input aborts the
whole run with `FileNotFoundError` (raised by `extract_zip` inside
`prepare_input`, which the source calls BEFORE the existence check), even
when a later input exists; only a missing input whose extension triggers no
archive extraction (here `.txt`) is skipped with a warning, after which the
run continues. -/
theorem C2_missing_archive_input_is_fatal :
    convert_multiple cls_zip_txt fs_nothing conv_ok "out".toList
        ["missing.zip".toList] = .error .fileNotFoundError ∧
    convert_multiple cls_zip_txt fs_only_ok_txt conv_ok "out".toList
        ["missing.zip".toList, "ok.txt".toList] = .error .fileNotFoundError ∧
    convert_multiple cls_zip_txt fs_only_ok_txt conv_ok "out".toList
        ["missing.txt".toList, "ok.txt".toList] = .ok ["out 1".toList] := by
  refine ⟨by decide, by decide, by decide⟩

/-! ## C3 -/

/-- C3: `prepare_input` evaluated on one input of every dispatch class:
`.bear2bk`/`.textpack` are unzipped and the single child folder returned;
`.jex`/`.tgz` are untarred into a fresh temporary folder;
`.apkg`/`.nsx`/`.zip` (case-insensitively)/`.zkn3` are unzipped into a fresh
temporary folder; a plain folder and a `.textbundle` folder pass through
unchanged — but a `.tar.gz` input is NOT untarred: `Path.suffix` is only
the last dotted part (`".gz"`), so the input is returned unchanged instead
of the `extract_tar` result the claim describes. -/
theorem C3_prepare_input_dispatch :
    prepare_input fs_everything "a.bear2bk".toList = .ok "zip/a.bear2bk/child".toList ∧
    prepare_input fs_everything "a.textpack".toList = .ok "zip/a.textpack/child".toList ∧
    prepare_input fs_everything "a.jex".toList = .ok "tar/a.jex".toList ∧
    prepare_input fs_everything "a.tgz".toList = .ok "tar/a.tgz".toList ∧
    prepare_input fs_everything "a.apkg".toList = .ok "zip/a.apkg".toList ∧
    prepare_input fs_everything "a.nsx".toList = .ok "zip/a.nsx".toList ∧
    prepare_input fs_everything "A.ZIP".toList = .ok "zip/A.ZIP".toList ∧
    prepare_input fs_everything "a.zkn3".toList = .ok "zip/a.zkn3".toList ∧
    prepare_input fs_everything "folder".toList = .ok "folder".toList ∧
    prepare_input fs_everything "a.textbundle".toList = .ok "a.textbundle".toList ∧
    prepare_input fs_everything "a.tar.gz".toList = .ok "a.tar.gz".toList ∧
    extract_tar fs_everything "a.tar.gz".toList = .ok "tar/a.tar.gz".toList ∧
    (Except.ok "a.tar.gz".toList : Except PyErr PyStr) ≠ .ok "tar/a.tar.gz".toList := by
  refine ⟨by decide, by decide, by decide, by decide, by decide, by decide,
    by decide, by decide, by decide, by decide, by decide, by decide, by decide⟩

/-! ## C4 -/

/-- C4 counterexample: a `.tid` tiddler carrying the system tag
`$:/tags/Macro` is converted and its note appended anyway —
`convert_tid` has no `$:/tags/` check, so the claim fails on the `.tid`
path. -/
theorem C4_counterexample :
    convert_tid (fun s => s)
        ("title: T\ntags: $:/tags/Macro x\ncreated: 20200101120000000\n" ++
          "modified: 20200101120000001\n\nbody line").toList
      = .ok ⟨"T".toList, "body line".toList, none,
          ["$:/tags/Macro".toList, "x".toList],
          some "20200101120000000".toList,
          some "20200101120000001".toList⟩ ∧
    "$:/tags/".toList.isPrefixOf "$:/tags/Macro".toList = true := by
  refine ⟨by decide, by decide⟩

/-- C4 (amended): only the `.json` tiddler-array path skips system tiddlers:
`convert_json` never appends a note carrying a tag beginning with
`$:/tags/`, while `convert_tid` appends its parsed note regardless of its
tags (witnessed by a `.tid` input whose appended note carries such a
tag). -/
theorem C4_only_json_path_skips_system_tiddlers :
    (∀ (wtm : PyStr → PyStr) (ut rf : PyStr) (ts : List Tiddler)
        (n : TiddlyNote), n ∈ convert_json wtm ut rf ts →
      n.tags.any (fun tg => "$:/tags/".toList.isPrefixOf tg) = false) ∧
    (∃ (content : PyStr) (n : TiddlyNote),
      convert_tid (fun s => s) content = .ok n ∧
      n.tags.any (fun tg => "$:/tags/".toList.isPrefixOf tg) = true) := by
  constructor
  · intro wtm ut rf ts n hn
    rw [convert_json, List.mem_filterMap] at hn
    obtain ⟨t, _ht, hone⟩ := hn
    simp only [convert_json_one] at hone
    split at hone
    · exact absurd hone (by simp)
    · split at hone
      · exact absurd hone (by simp)
      · rename_i hnotsys
        obtain rfl := (Option.some.inj hone).symm
        simpa using hnotsys
  · refine ⟨("title: S\ntags: $:/tags/Stylesheet\ncreated: 20210101000000000\n" ++
      "modified: 20210101000000002\n\nbody2").toList,
      ⟨"S".toList, "body2".toList, none, ["$:/tags/Stylesheet".toList],
        some "20210101000000000".toList, some "20210101000000002".toList⟩,
      by decide, by decide⟩

/-- C4 witness: the JSON-path half applied to a concrete ordinary tiddler:
its note's tags carry no `$:/tags/` prefix. -/
theorem C4_witness :
    (⟨"T".toList, "b".toList, none, ["a".toList, "b2".toList], none, none⟩ :
        TiddlyNote).tags.any (fun tg => "$:/tags/".toList.isPrefixOf tg)
      = false := by
  exact C4_only_json_path_skips_system_tiddlers.1 (fun s => s) "u".toList
    "r".toList [plain_tiddler] _ (by decide)

/-! ## C5 -/

/-- C5: the legacy Obsidian adapter's markdown-link handling raises
`TypeError` on EVERY body containing at least one markdown link: the source
unpacks each element of `common.get_markdown_links(body)` as a
`(file_prefix, description, url)` triple, but that function returns
`MarkdownLink` dataclass instances, which cannot be unpacked — so no link is
ever classified.  The second conjunct evaluates the failing input (a body
whose link list is `[MarkdownLink("text", "note.md")]`). -/
theorem C5_markdown_link_unpack_raises :
    (∀ (find_file : PyStr → Option PyStr) (unquote : PyStr → PyStr)
        (l : MarkdownLink) (rest : List MarkdownLink),
      obsidian_handle_markdown_links find_file unquote (l :: rest) =
        .error "TypeError: cannot unpack non-iterable MarkdownLink object".toList) ∧
    obsidian_handle_markdown_links (fun _ => none) (fun s => s)
        [⟨"text".toList, "note.md".toList, false⟩] =
      .error "TypeError: cannot unpack non-iterable MarkdownLink object".toList := by
  exact ⟨fun find_file unquote l rest => rfl, by decide⟩

/-! ## C7 -/

/-- Invariant of Python `max(..., key=f)`'s running-best loop: the result's
key dominates the initial best and every listed element, and the result is
either the initial best (kept on ties) or the FIRST listed element whose key
strictly exceeds both the initial best's and every earlier element's. -/
theorem py_max_go_first_maximal {α : Type} (key : α → ℚ) (xs : List α) :
    ∀ best : α,
      key best ≤ key (py_max_go key best xs) ∧
      (∀ x ∈ xs, key x ≤ key (py_max_go key best xs)) ∧
      (py_max_go key best xs = best ∨
        ∃ l1 l2, xs = l1 ++ py_max_go key best xs :: l2 ∧
          key best < key (py_max_go key best xs) ∧
          ∀ x ∈ l1, key x < key (py_max_go key best xs)) := by
  induction xs with
  | nil => intro best; simp [py_max_go]
  | cons x t ih =>
    intro best
    rw [py_max_go]
    by_cases hx : key best < key x
    · rw [if_pos hx]
      obtain ⟨ih1, ih2, ih3⟩ := ih x
      refine ⟨le_trans (le_of_lt hx) ih1, ?_, ?_⟩
      · intro y hy
        rcases List.mem_cons.mp hy with rfl | hy2
        · exact ih1
        · exact ih2 y hy2
      · rcases ih3 with heq | ⟨l1, l2, ht, hlt, hl1⟩
        · right
          refine ⟨[], t, by simp [heq], by rw [heq]; exact hx, by simp⟩
        · right
          refine ⟨x :: l1, l2, ?_, lt_trans hx hlt, ?_⟩
          · rw [List.cons_append, ← ht]
          · intro y hy
            rcases List.mem_cons.mp hy with rfl | hy2
            · exact hlt
            · exact hl1 y hy2
    · rw [if_neg hx]
      obtain ⟨ih1, ih2, ih3⟩ := ih best
      have hxle : key x ≤ key best := le_of_not_lt hx
      refine ⟨ih1, ?_, ?_⟩
      · intro y hy
        rcases List.mem_cons.mp hy with rfl | hy2
        · exact le_trans hxle ih1
        · exact ih2 y hy2
      · rcases ih3 with heq | ⟨l1, l2, ht, hlt, hl1⟩
        · left; exact heq
        · right
          refine ⟨x :: l1, l2, ?_, hlt, ?_⟩
          · rw [List.cons_append, ← ht]
          · intro y hy
            rcases List.mem_cons.mp hy with rfl | hy2
            · exact lt_of_le_of_lt hxle hlt
            · exact hl1 y hy2

/-- C7: for every similarity function, `notestation://` link and non-empty
id→title candidate map, the converter resolves the link to a `NoteLink`
targeting the candidate id whose title maximises the similarity to the
link's display text, and on ties the candidate occurring first in the map's
iteration (insertion) order wins: the map decomposes as `l1 ++ e :: l2`
where the chosen entry `e` weakly dominates every entry and strictly
dominates every earlier entry. -/
theorem C7_notestation_link_first_maximal (ratio : PyStr → PyStr → ℚ)
    (link : MarkdownLink) (m : List (PyStr × PyStr)) (h : m ≠ []) :
    ∃ (l1 : List (PyStr × PyStr)) (e : PyStr × PyStr)
      (l2 : List (PyStr × PyStr)),
      m = l1 ++ e :: l2 ∧
      best_match_id ratio link.text m = some e.1 ∧
      resolve_notestation_link ratio link m =
        some ⟨mdlink_str link, e.1, link.text⟩ ∧
      (∀ q ∈ m, ratio link.text q.2 ≤ ratio link.text e.2) ∧
      (∀ q ∈ l1, ratio link.text q.2 < ratio link.text e.2) := by
  match m, h with
  | x :: t, _ =>
    obtain ⟨g1, g2, g3⟩ :=
      py_max_go_first_maximal (get_match_ratio ratio link.text) t x
    rcases g3 with heq | ⟨l1, l2, ht, hlt, hl1⟩
    · refine ⟨[], x, t, by simp, ?_, ?_, ?_, by simp⟩
      · simp [best_match_id, py_max, heq]
      · simp [resolve_notestation_link, best_match_id, py_max, heq]
      · intro q hq
        rcases List.mem_cons.mp hq with rfl | hq2
        · exact le_refl _
        · have := g2 q hq2
          rw [heq] at this
          exact this
    · refine ⟨x :: l1, py_max_go (get_match_ratio ratio link.text) x t, l2,
        ?_, ?_, ?_, ?_, ?_⟩
      · rw [List.cons_append, ← ht]
      · simp [best_match_id, py_max]
      · simp [resolve_notestation_link, best_match_id, py_max]
      · intro q hq
        rcases List.mem_cons.mp hq with rfl | hq2
        · exact le_of_lt hlt
        · exact g2 q hq2
      · intro q hq
        rcases List.mem_cons.mp hq with rfl | hq2
        · exact hlt
        · exact hl1 q hq2

/-- C7 witness: the theorem applied to a three-candidate map whose second
and third titles tie for the best ratio — the second (earlier) candidate is
chosen. -/
theorem C7_witness :
    ∃ (l1 : List (PyStr × PyStr)) (e : PyStr × PyStr)
      (l2 : List (PyStr × PyStr)),
      ([("id1".toList, "aa".toList), ("id2".toList, "ab".toList),
        ("id3".toList, "ab".toList)] : List (PyStr × PyStr)) = l1 ++ e :: l2 ∧
      best_match_id (fun lt2 t2 => if lt2 = t2 then 1 else 0) "ab".toList
        [("id1".toList, "aa".toList), ("id2".toList, "ab".toList),
          ("id3".toList, "ab".toList)] = some e.1 ∧
      resolve_notestation_link (fun lt2 t2 => if lt2 = t2 then 1 else 0)
        ⟨"ab".toList, "notestation://remote/self/1".toList, false⟩
        [("id1".toList, "aa".toList), ("id2".toList, "ab".toList),
          ("id3".toList, "ab".toList)] =
        some ⟨mdlink_str ⟨"ab".toList, "notestation://remote/self/1".toList, false⟩,
          e.1, "ab".toList⟩ ∧
      (∀ q ∈ ([("id1".toList, "aa".toList), ("id2".toList, "ab".toList),
        ("id3".toList, "ab".toList)] : List (PyStr × PyStr)),
        (fun lt2 t2 => if lt2 = t2 then (1 : ℚ) else 0) "ab".toList q.2 ≤
          (fun lt2 t2 => if lt2 = t2 then (1 : ℚ) else 0) "ab".toList e.2) ∧
      (∀ q ∈ l1, (fun lt2 t2 => if lt2 = t2 then (1 : ℚ) else 0) "ab".toList q.2 <
        (fun lt2 t2 => if lt2 = t2 then (1 : ℚ) else 0) "ab".toList e.2) := by
  exact C7_notestation_link_first_maximal
    (fun lt2 t2 => if lt2 = t2 then 1 else 0)
    ⟨"ab".toList, "notestation://remote/self/1".toList, false⟩
    [("id1".toList, "aa".toList), ("id2".toList, "ab".toList),
      ("id3".toList, "ab".toList)] (by decide)

/-! ## C6 and C10 -/

theorem list_attach_map {α β : Type} (l : List α) (f : α → β) :
    (l.attach.map fun c => f c.1) = l.map f := by
  simp

/-- The spec-modelled `is_empty` is the negation of `contains_note`: a
notebook is empty iff no note occurs at any depth. -/
theorem is_empty_eq_not_contains_note (nb : Notebook) :
    nb.is_empty = !nb.contains_note := by
  induction nb using Notebook.rec_mem with
  | _ t ns cs ih =>
    rw [Notebook.is_empty, Notebook.contains_note]
    rw [list_attach_all, list_attach_any]
    have hcong : cs.all Notebook.is_empty = cs.all (fun c => !c.contains_note) :=
      list_all_congr (fun c hc => ih c hc)
    rw [hcong]
    simp [List.all_eq_not_any_not]

/-- Pruning preserves emptiness: `remove_empty_notebooks` deletes only
note-free subtrees, so whether a notebook contains any note is unchanged. -/
theorem is_empty_remove (nb : Notebook) :
    (remove_empty_notebooks nb).is_empty = nb.is_empty := by
  induction nb using Notebook.rec_mem with
  | _ t ns cs ih =>
    rw [remove_empty_notebooks]
    rw [Notebook.is_empty, Notebook.is_empty]
    rw [list_attach_all, list_attach_all, list_attach_map]
    rw [list_filter_not_all]
    rw [List.all_map]
    exact congrArg (ns.isEmpty && ·) (list_all_congr fun c hc => ih c hc)

/-- C6: `remove_empty_notebooks` removes exactly the child-notebook
subtrees containing zero notes at every depth: it coincides with the
spec-side pruning that keeps (and recursively prunes) precisely the children
with a note somewhere — so a notebook whose only content is a note-free
nested notebook is removed together with it, while every notebook with a
note at any depth survives along with its ancestors.  The two closing
conjuncts evaluate the spec's two scenarios. -/
theorem C6_remove_empty_notebooks_refines_spec :
    (∀ nb : Notebook,
      remove_empty_notebooks nb = remove_empty_notebooks_per_spec nb) ∧
    remove_empty_notebooks
        (.mk "root" [] [.mk "outer" [] [.mk "inner" [] []]]) =
      .mk "root" [] [] ∧
    remove_empty_notebooks
        (.mk "root" [] [.mk "outer" [] [.mk "inner" ["n1"] []],
          .mk "dead" [] []]) =
      .mk "root" [] [.mk "outer" [] [.mk "inner" ["n1"] []]] := by
  refine ⟨?_, ?_, ?_⟩
  · intro nb
    induction nb using Notebook.rec_mem with
    | _ t ns cs ih =>
      rw [remove_empty_notebooks, remove_empty_notebooks_per_spec]
      rw [list_attach_map, list_attach_map]
      congr 1
      rw [list_filter_of_map]
      have hfil : (cs.filter fun c => !(remove_empty_notebooks c).is_empty) =
          cs.filter Notebook.contains_note := by
        apply List.filter_congr
        intro c hc
        rw [is_empty_remove, is_empty_eq_not_contains_note, Bool.not_not]
      rw [hfil]
      exact List.map_congr_left
        (fun c hc => ih c (List.mem_of_mem_filter hc))
  · simp [remove_empty_notebooks, Notebook.is_empty]
  · simp [remove_empty_notebooks, Notebook.is_empty]

/-- C10: `remove_empty_notebooks` never removes or alters the notebook it
is invoked on (title and notes of the root are returned unchanged, even when
it holds no notes and no children), and every notebook surviving anywhere in
the result keeps the title and the `child_notes` list of the original
notebook it descends from — the only mutation anywhere is the filtering of
`child_notebooks` lists. -/
theorem C10_remove_empty_notebooks_frame : ∀ nb : Notebook,
    (remove_empty_notebooks nb).title = nb.title ∧
    (remove_empty_notebooks nb).child_notes = nb.child_notes ∧
    ∀ m ∈ all_notebooks (remove_empty_notebooks nb),
      ∃ m0 ∈ all_notebooks nb,
        m.title = m0.title ∧ m.child_notes = m0.child_notes := by
  intro nb
  refine ⟨?_, ?_, ?_⟩
  · cases nb with
    | mk t ns cs => rw [remove_empty_notebooks]; rfl
  · cases nb with
    | mk t ns cs => rw [remove_empty_notebooks]; rfl
  · induction nb using Notebook.rec_mem with
    | _ t ns cs ih =>
      intro m hm
      rw [remove_empty_notebooks] at hm
      rw [list_attach_map] at hm
      rw [all_notebooks] at hm
      rw [list_attach_map] at hm
      rcases List.mem_cons.mp hm with rfl | hm2
      · refine ⟨.mk t ns cs, ?_, rfl, rfl⟩
        rw [all_notebooks]
        exact List.mem_cons_self _ _
      · rw [List.mem_flatten] at hm2
        obtain ⟨L, hL, hmL⟩ := hm2
        rw [List.mem_map] at hL
        obtain ⟨c', hc', rfl⟩ := hL
        have hc'2 : c' ∈ cs.map remove_empty_notebooks :=
          List.mem_of_mem_filter hc'
        rw [List.mem_map] at hc'2
        obtain ⟨c0, hc0, rfl⟩ := hc'2
        obtain ⟨m0, hm0, hteq, hneq⟩ := ih c0 hc0 m hmL
        refine ⟨m0, ?_, hteq, hneq⟩
        rw [all_notebooks]
        refine List.mem_cons_of_mem _ ?_
        rw [list_attach_map]
        rw [List.mem_flatten]
        exact ⟨all_notebooks c0, List.mem_map_of_mem _ hc0, hm0⟩

/-- C10 witness: the frame theorem applied to a concrete two-level tree. -/
theorem C10_witness :
    (remove_empty_notebooks (.mk "root" ["keep"] [.mk "hollow" [] []])).title
        = "root" ∧
    (remove_empty_notebooks
        (.mk "root" ["keep"] [.mk "hollow" [] []])).child_notes = ["keep"] :=
  ⟨(C10_remove_empty_notebooks_frame _).1,
    (C10_remove_empty_notebooks_frame _).2.1⟩

end Jimmy


